import Mathlib

/-!
Shallow embedding of the ledger, referral and withdrawal-workflow logic of
`GetPaidBD_Code.py` (a Telegram referral-reward bot backed by a `users` and a
`withdrawals` table), together with proofs of the behavioural claims about it.

Modelling conventions:
* The `users` table is a list of rows (`DB`); `supabase.select ... eq("id",u)`
  with `maybe_single` is `List.find?` on the id column, and
  `update(...).eq("id",u)` rewrites every row whose id matches.
* Python integers are `Int`; Python strings are `String`.
* Calls to the external store can raise; each store-touching helper therefore
  takes a `Bool` failure oracle meaning "this call raised an exception", in
  which case the source's `except` branch runs (no row is written).
-/

namespace GetPaidBD

/-- Configuration constants of the source (lines 81-83). -/
def JOINING_BONUS : Int := 50

/-- Per-referral bonus credited to the referrer (line 82). -/
def REFERRAL_BONUS : Int := 10

/-- Minimum amount a user may withdraw (line 83). -/
def MIN_WITHDRAWAL_AMOUNT : Int := 500

/-- A row of the `users` table: `{id, name, balance, ref_by, referrals, withdraws}`. -/
structure UserAccount where
  id : Int
  name : String
  balance : Int
  ref_by : Option Int
  referrals : Int
  withdraws : Int
deriving DecidableEq, Repr

/-- The `users` table. -/
abbrev DB := List UserAccount

/-- A row of the `withdrawals` table (see `record_withdrawal`, lines 159-173). -/
structure WithdrawalRequest where
  user_id : Int
  full_name : String
  amount : Int
  method : String
  account_number : String
  status : String
  request_id : String
deriving DecidableEq, Repr

/-- `get_user` (lines 98-104): select the row whose `id` equals `user_id`. -/
def get_user (db : DB) (user_id : Int) : Option UserAccount :=
  db.find? (fun u => u.id == user_id)

/-- `update({"balance": b}).eq("id", user_id)`: rewrite the balance of every
row whose id matches. -/
def set_balance (db : DB) (user_id : Int) (b : Int) : DB :=
  db.map (fun u => if u.id == user_id then { u with balance := b } else u)

/-- `update({"referrals": n}).eq("id", user_id)`. -/
def set_referrals (db : DB) (user_id : Int) (n : Int) : DB :=
  db.map (fun u => if u.id == user_id then { u with referrals := n } else u)

/-- Return value of `update_user_balance`: Python `True`, Python `False`, or
the string `"insufficient_funds"`. -/
inductive UpdateResult where
  | ok
  | err
  | insufficientFunds
deriving DecidableEq, Repr

/-- `update_user_balance` (lines 128-147).  `storeFail = true` means the
final `supabase ... update ... execute()` raised, so the `except` branch
returns `False` with no row changed. -/
def update_user_balance (db : DB) (user_id : Int) (amount_change : Int)
    (operation : String) (storeFail : Bool) : UpdateResult × DB :=
  match get_user db user_id with
  | none => (.err, db)
  | some user =>
    let current_balance := user.balance
    if operation = "add" then
      let new_balance := current_balance + amount_change
      if storeFail then (.err, db) else (.ok, set_balance db user_id new_balance)
    else if operation = "subtract" then
      if current_balance < amount_change then (.insufficientFunds, db)
      else
        let new_balance := current_balance - amount_change
        if storeFail then (.err, db) else (.ok, set_balance db user_id new_balance)
    else (.err, db)

/-- `increment_referral_count` (lines 149-157).  All exceptions are swallowed,
leaving the table unchanged. -/
def increment_referral_count (db : DB) (user_id : Int) (updFail : Bool) : DB :=
  match get_user db user_id with
  | none => db
  | some user => if updFail then db else set_referrals db user_id (user.referrals + 1)

/-- The row inserted for a fresh registration (lines 108-111). -/
def new_user_row (user_id : Int) (name : String) (referred_by : Option Int) : UserAccount :=
  { id := user_id, name := name, balance := JOINING_BONUS,
    ref_by := referred_by, referrals := 0, withdraws := 0 }

/-- `create_user` (lines 106-126).  A duplicate key makes the insert raise
Postgres 23505, which the source catches and turns into `get_user(user_id)`;
`insertFail = true` is any other exception, returning `None`. -/
def create_user (db : DB) (user_id : Int) (name : String) (referred_by : Option Int)
    (insertFail : Bool) : Option UserAccount × DB :=
  if insertFail then (none, db)
  else
    match get_user db user_id with
    | some u => (some u, db)
    | none => (some (new_user_row user_id name referred_by),
               db ++ [new_user_row user_id name referred_by])

/- ### View lemmas about the store primitives -/

/-- Reading through `set_balance`: only the targeted id changes, and it changes
exactly its balance field. -/
theorem get_user_set_balance (db : DB) (user_id b id : Int) :
    get_user (set_balance db user_id b) id =
      if id = user_id then (get_user db user_id).map (fun u => { u with balance := b })
      else get_user db id := by
  have hcomp : ((fun v : UserAccount => v.id == id) ∘
      (fun v => if v.id == user_id then { v with balance := b } else v)) =
      (fun v : UserAccount => v.id == id) := by
    funext v
    simp only [Function.comp]
    split <;> rfl
  unfold get_user set_balance
  rw [List.find?_map, hcomp]
  by_cases hid : id = user_id
  · subst hid
    cases hfind : db.find? (fun v => v.id == id) with
    | none => simp
    | some u =>
      have hp := List.find?_some hfind
      simp only [beq_iff_eq] at hp
      simp [hp]
  · rw [if_neg hid]
    cases hfind : db.find? (fun v => v.id == id) with
    | none => simp
    | some u =>
      have hp := List.find?_some hfind
      simp only [beq_iff_eq] at hp
      simp [hp, hid]

/-- Reading through `set_referrals`: only the targeted id changes. -/
theorem get_user_set_referrals (db : DB) (user_id n id : Int) :
    get_user (set_referrals db user_id n) id =
      if id = user_id then (get_user db user_id).map (fun u => { u with referrals := n })
      else get_user db id := by
  have hcomp : ((fun v : UserAccount => v.id == id) ∘
      (fun v => if v.id == user_id then { v with referrals := n } else v)) =
      (fun v : UserAccount => v.id == id) := by
    funext v
    simp only [Function.comp]
    split <;> rfl
  unfold get_user set_referrals
  rw [List.find?_map, hcomp]
  by_cases hid : id = user_id
  · subst hid
    cases hfind : db.find? (fun v => v.id == id) with
    | none => simp
    | some u =>
      have hp := List.find?_some hfind
      simp only [beq_iff_eq] at hp
      simp [hp]
  · rw [if_neg hid]
    cases hfind : db.find? (fun v => v.id == id) with
    | none => simp
    | some u =>
      have hp := List.find?_some hfind
      simp only [beq_iff_eq] at hp
      simp [hp, hid]

/-- Reading an appended table: the earlier rows win. -/
theorem get_user_append (db l : DB) (id : Int) :
    get_user (db ++ l) id = (get_user db id).or (get_user l id) := by
  unfold get_user
  exact List.find?_append

/-- Membership in a balance rewrite: a row either got the new balance or is an
original row. -/
theorem balance_mem_set_balance (db : DB) (user_id b : Int) :
    ∀ u ∈ set_balance db user_id b, u.balance = b ∨ u ∈ db := by
  intro u hu
  unfold set_balance at hu
  rcases List.mem_map.mp hu with ⟨v, hv, heq⟩
  by_cases h : v.id == user_id
  · left
    rw [← heq]
    simp [h]
  · right
    rw [if_neg (by simpa using h)] at heq
    rw [← heq]
    exact hv

/-- One `update_user_balance` call with a non-negative amount preserves
non-negativity of every stored balance. -/
theorem update_user_balance_nonneg (db : DB) (uid amt : Int) (op : String) (sf : Bool)
    (hamt : 0 ≤ amt) (hdb : ∀ u ∈ db, 0 ≤ u.balance) :
    ∀ u ∈ (update_user_balance db uid amt op sf).2, 0 ≤ u.balance := by
  intro u hu
  unfold update_user_balance at hu
  cases hfind : get_user db uid with
  | none =>
    rw [hfind] at hu
    exact hdb u hu
  | some w =>
    rw [hfind] at hu
    have hwb : 0 ≤ w.balance := hdb w (List.mem_of_find?_eq_some hfind)
    simp only at hu
    split at hu
    · split at hu
      · exact hdb u hu
      · rcases balance_mem_set_balance db uid (w.balance + amt) u hu with h | h
        · omega
        · exact hdb u h
    · split at hu
      · split at hu
        next hlt => exact hdb u hu
        next hlt =>
          split at hu
          · exact hdb u hu
          · rcases balance_mem_set_balance db uid (w.balance - amt) u hu with h | h
            · omega
            · exact hdb u h
      · exact hdb u hu

/-- A whole trace of `update_user_balance` calls, in order. -/
def apply_ops (db : DB) (ops : List (Int × Int × String × Bool)) : DB :=
  ops.foldl (fun d o => (update_user_balance d o.1 o.2.1 o.2.2.1 o.2.2.2).2) db

theorem apply_ops_nonneg :
    ∀ (ops : List (Int × Int × String × Bool)) (db : DB),
      (∀ u ∈ db, 0 ≤ u.balance) → (∀ o ∈ ops, 0 ≤ o.2.1) →
      ∀ u ∈ apply_ops db ops, 0 ≤ u.balance := by
  intro ops
  induction ops with
  | nil =>
    intro db hdb _
    simpa [apply_ops] using hdb
  | cons o t ih =>
    intro db hdb hops
    have h1 : ∀ u ∈ (update_user_balance db o.1 o.2.1 o.2.2.1 o.2.2.2).2, 0 ≤ u.balance :=
      update_user_balance_nonneg db o.1 o.2.1 o.2.2.1 o.2.2.2 (hops o (List.mem_cons_self o t)) hdb
    have h2 : ∀ p ∈ t, 0 ≤ p.2.1 := fun p hp => hops p (List.mem_cons_of_mem o hp)
    simpa [apply_ops] using ih _ h1 h2

/-- C2: for every sequence of balance adjustments with non-negative amounts the
stored balances stay non-negative, and a subtract whose amount exceeds the
current balance returns `"insufficient_funds"` with the table unchanged. -/
theorem C2_balance_nonneg :
    (∀ (ops : List (Int × Int × String × Bool)) (db : DB),
        (∀ u ∈ db, 0 ≤ u.balance) → (∀ o ∈ ops, 0 ≤ o.2.1) →
        ∀ u ∈ apply_ops db ops, 0 ≤ u.balance)
    ∧ (∀ (db : DB) (uid amt : Int) (sf : Bool) (u : UserAccount),
        get_user db uid = some u → u.balance < amt →
        update_user_balance db uid amt "subtract" sf = (.insufficientFunds, db)) := by
  constructor
  · exact apply_ops_nonneg
  · intro db uid amt sf u hfind hlt
    unfold update_user_balance
    rw [hfind]
    simp [hlt]

def c2db : DB := [{ id := 1, name := "a", balance := 600, ref_by := none,
                    referrals := 0, withdraws := 0 }]

def c2ops : List (Int × Int × String × Bool) :=
  [(1, 10, "add", false), (1, 700, "subtract", false), (1, 550, "subtract", false)]

/-- Witness for C2 at a concrete trace. -/
theorem C2_balance_nonneg_witness :
    (∀ u ∈ c2db, 0 ≤ u.balance) ∧ (∀ o ∈ c2ops, 0 ≤ o.2.1) ∧
      (∀ u ∈ apply_ops c2db c2ops, 0 ≤ u.balance) :=
  ⟨by decide, by decide, C2_balance_nonneg.1 c2ops c2db (by decide) (by decide)⟩

/-- C10: an operation mode other than `"add"`/`"subtract"` returns `False` with
the table untouched, and so does a call for an unknown user id. -/
theorem C10_update_user_balance_guards :
    (∀ (db : DB) (uid amt : Int) (op : String) (sf : Bool),
        op ≠ "add" → op ≠ "subtract" →
        update_user_balance db uid amt op sf = (.err, db))
    ∧ (∀ (db : DB) (uid amt : Int) (op : String) (sf : Bool),
        get_user db uid = none →
        update_user_balance db uid amt op sf = (.err, db)) := by
  constructor
  · intro db uid amt op sf h1 h2
    unfold update_user_balance
    cases hfind : get_user db uid with
    | none => rfl
    | some w =>
      simp only
      rw [if_neg h1, if_neg h2]
  · intro db uid amt op sf h
    unfold update_user_balance
    rw [h]

def c10db : DB := [{ id := 3, name := "b", balance := 20, ref_by := none,
                     referrals := 0, withdraws := 0 }]

/-- Witness for C10 at a concrete table. -/
theorem C10_update_user_balance_guards_witness :
    (("multiply" : String) ≠ "add") ∧ (("multiply" : String) ≠ "subtract") ∧
      update_user_balance c10db 3 5 "multiply" false = (.err, c10db) ∧
      get_user c10db 4 = none ∧
      update_user_balance c10db 4 5 "add" false = (.err, c10db) :=
  ⟨by decide, by decide,
   C10_update_user_balance_guards.1 c10db 3 5 "multiply" false (by decide) (by decide),
   by decide,
   C10_update_user_balance_guards.2 c10db 4 5 "add" false (by decide)⟩

/- ### Amount entry step (C3) -/

/-- Result of a text step of the withdrawal conversation: stay in the same
state (re-prompt) or move on carrying the validated value. -/
inductive AmountStepResult where
  | reprompt
  | proceed (amt : Int)
deriving DecidableEq, Repr

/-- `enter_withdrawal_amount` (lines 519-543).  `parsed` is `int(text.strip())`
when the text parses as an integer, `none` when `int` raised `ValueError`;
`current_balance` is the balance fetched inside the handler. -/
def enter_withdrawal_amount (parsed : Option Int) (current_balance : Int) : AmountStepResult :=
  match parsed with
  | none => .reprompt
  | some amt_requested =>
    if MIN_WITHDRAWAL_AMOUNT ≤ amt_requested ∧ amt_requested ≤ current_balance ∧
        0 < amt_requested then
      .proceed amt_requested
    else .reprompt

/-- C3: the amount step accepts an integer exactly when it lies between
`MIN_WITHDRAWAL_AMOUNT = 500` and the balance read at the prompt; anything
else (including non-integers) re-prompts, and for a balance of 500 the inputs
499/500/501 behave as the spec says. -/
theorem C3_withdrawal_amount_bounds :
    (∀ (a bal : Int),
        enter_withdrawal_amount (some a) bal = .proceed a ↔
          MIN_WITHDRAWAL_AMOUNT ≤ a ∧ a ≤ bal)
    ∧ (∀ (a bal : Int),
        enter_withdrawal_amount (some a) bal = .reprompt ↔
          ¬(MIN_WITHDRAWAL_AMOUNT ≤ a ∧ a ≤ bal))
    ∧ (∀ bal : Int, enter_withdrawal_amount none bal = .reprompt)
    ∧ enter_withdrawal_amount (some 499) 500 = .reprompt
    ∧ enter_withdrawal_amount (some 500) 500 = .proceed 500
    ∧ enter_withdrawal_amount (some 501) 500 = .reprompt := by
  refine ⟨?_, ?_, fun _ => rfl, by decide, by decide, by decide⟩
  · intro a bal
    simp only [enter_withdrawal_amount]
    by_cases hc : MIN_WITHDRAWAL_AMOUNT ≤ a ∧ a ≤ bal ∧ 0 < a
    · rw [if_pos hc]
      exact ⟨fun _ => ⟨hc.1, hc.2.1⟩, fun _ => rfl⟩
    · rw [if_neg hc]
      constructor
      · intro h
        exact AmountStepResult.noConfusion h
      · intro h
        have : 0 < a := by
          have := h.1
          unfold MIN_WITHDRAWAL_AMOUNT at this
          omega
        exact absurd ⟨h.1, h.2, this⟩ hc
  · intro a bal
    simp only [enter_withdrawal_amount]
    by_cases hc : MIN_WITHDRAWAL_AMOUNT ≤ a ∧ a ≤ bal ∧ 0 < a
    · rw [if_pos hc]
      constructor
      · intro h
        exact AmountStepResult.noConfusion h
      · intro h
        exact absurd ⟨hc.1, hc.2.1⟩ h
    · rw [if_neg hc]
      refine ⟨fun _ => ?_, fun _ => rfl⟩
      intro hcon
      have : 0 < a := by
        have := hcon.1
        unfold MIN_WITHDRAWAL_AMOUNT at this
        omega
      exact hc ⟨hcon.1, hcon.2, this⟩

/- ### Account number step (C7) -/

/-- The code-point ranges of the characters CPython's `\d` matches in a `str`
pattern.  The source compiles its pattern without `re.ASCII` (line 511), so
`\d` is Unicode-aware: it matches the decimal digits of every script — e.g.
the Bengali digits U+09E6-U+09EF — not just ASCII `0`-`9`.  Enumerated from
CPython's `re` module. -/
def python_digit_ranges : List (Nat × Nat) :=
  [(0x30, 0x39), (0x660, 0x669), (0x6F0, 0x6F9), (0x7C0, 0x7C9), (0x966, 0x96F),
   (0x9E6, 0x9EF), (0xA66, 0xA6F), (0xAE6, 0xAEF), (0xB66, 0xB6F), (0xBE6, 0xBEF),
   (0xC66, 0xC6F), (0xCE6, 0xCEF), (0xD66, 0xD6F), (0xDE6, 0xDEF), (0xE50, 0xE59),
   (0xED0, 0xED9), (0xF20, 0xF29), (0x1040, 0x1049), (0x1090, 0x1099), (0x17E0, 0x17E9),
   (0x1810, 0x1819), (0x1946, 0x194F), (0x19D0, 0x19D9), (0x1A80, 0x1A89), (0x1A90, 0x1A99),
   (0x1B50, 0x1B59), (0x1BB0, 0x1BB9), (0x1C40, 0x1C49), (0x1C50, 0x1C59), (0xA620, 0xA629),
   (0xA8D0, 0xA8D9), (0xA900, 0xA909), (0xA9D0, 0xA9D9), (0xA9F0, 0xA9F9), (0xAA50, 0xAA59),
   (0xABF0, 0xABF9), (0xFF10, 0xFF19), (0x104A0, 0x104A9), (0x10D30, 0x10D39), (0x11066, 0x1106F),
   (0x110F0, 0x110F9), (0x11136, 0x1113F), (0x111D0, 0x111D9), (0x112F0, 0x112F9), (0x11450, 0x11459),
   (0x114D0, 0x114D9), (0x11650, 0x11659), (0x116C0, 0x116C9), (0x11730, 0x11739), (0x118E0, 0x118E9),
   (0x11950, 0x11959), (0x11C50, 0x11C59), (0x11D50, 0x11D59), (0x11DA0, 0x11DA9), (0x16A60, 0x16A69),
   (0x16AC0, 0x16AC9), (0x16B50, 0x16B59), (0x1D7CE, 0x1D7FF), (0x1E140, 0x1E149), (0x1E2F0, 0x1E2F9),
   (0x1E950, 0x1E959), (0x1FBF0, 0x1FBF9)]

/-- The regex class `\d` under CPython's Unicode `str` semantics. -/
def is_digit_char (c : Char) : Bool :=
  python_digit_ranges.any (fun r => Char.ofNat r.1 ≤ c && c ≤ Char.ofNat r.2)

/-- A character of the ASCII class `[3-9]` is in particular a `\d` digit. -/
theorem is_digit_char_of_ascii_mid (c : Char) (h3 : '3' ≤ c) (h9 : c ≤ '9') :
    is_digit_char c = true := by
  unfold is_digit_char
  rw [List.any_eq_true]
  refine ⟨(0x30, 0x39), by decide, ?_⟩
  show (decide (Char.ofNat 0x30 ≤ c) && decide (c ≤ Char.ofNat 0x39)) = true
  rw [Bool.and_eq_true, decide_eq_true_eq, decide_eq_true_eq]
  exact ⟨le_trans (by decide : Char.ofNat 0x30 ≤ '3') h3,
         le_trans h9 (by decide : ('9' : Char) ≤ Char.ofNat 0x39)⟩

/-- The language of the source regex for account numbers (line 511):
`^01[3-9]\d{8}(\d?)$` — literal `0`, literal `1`, one character in the
code-point range `3`-`9`, eight `\d` digits, then an optional ninth. -/
def matches_wd_number (cs : List Char) : Bool :=
  match cs with
  | a :: b :: c :: rest =>
    a == '0' && b == '1' && ('3' ≤ c && c ≤ '9') &&
      rest.all is_digit_char && (rest.length == 8 || rest.length == 9)
  | _ => false

/-- Result of the account-number text step. -/
inductive NumberStepResult where
  | reprompt
  | proceed
deriving DecidableEq, Repr

/-- `enter_account_number` (lines 508-517); the argument is the stripped
message text, so `$` matching before a trailing newline cannot arise.  A match
stores the number and moves to the amount state, a mismatch re-prompts the
same state. -/
def enter_account_number (acc_num : String) : NumberStepResult :=
  if matches_wd_number acc_num.data then .proceed else .reprompt

/-- Modelled from the spec words, for comparison with the code regex: a string
of 11 or 12 `\d` digits whose leading digits obey the mobile-numbering scheme
(starts `01`, third digit `3`-`9`). -/
def spec_number_ok (cs : List Char) : Bool :=
  (cs.length == 11 || cs.length == 12) && cs.all is_digit_char &&
    (match cs with
     | a :: b :: c :: _ => a == '0' && b == '1' && ('3' ≤ c && c ≤ '9')
     | _ => false)

theorem matches_wd_number_iff_spec (cs : List Char) :
    matches_wd_number cs = true ↔ spec_number_ok cs = true := by
  match cs with
  | [] => simp [matches_wd_number, spec_number_ok]
  | [a] => simp [matches_wd_number, spec_number_ok]
  | [a, b] => simp [matches_wd_number, spec_number_ok]
  | a :: b :: c :: rest =>
    simp only [matches_wd_number, spec_number_ok, List.all_cons, List.length_cons,
      Bool.and_eq_true, Bool.or_eq_true, beq_iff_eq, decide_eq_true_eq]
    constructor
    · rintro ⟨⟨⟨⟨ha, hb⟩, hc3, hc9⟩, hall⟩, hlen⟩
      have hca : is_digit_char a = true := by
        subst ha
        decide
      have hcb : is_digit_char b = true := by
        subst hb
        decide
      have hcc : is_digit_char c = true := is_digit_char_of_ascii_mid c hc3 hc9
      refine ⟨⟨?_, hca, hcb, hcc, hall⟩, ⟨ha, hb⟩, hc3, hc9⟩
      omega
    · rintro ⟨⟨hlen, _, _, _, hall⟩, ⟨ha, hb⟩, hc3, hc9⟩
      refine ⟨⟨⟨⟨ha, hb⟩, hc3, hc9⟩, hall⟩, ?_⟩
      omega

/-- C7: the account-number step accepts exactly the strings of 11-12 `\d`
digits (Unicode decimal digits, e.g. a Bengali-digit tail) with the numbering
scheme's leading-digit constraints (`01`, then `3`-`9`), and any other input
re-prompts; the pattern the code applies is the same for every payout method. -/
theorem C7_account_number_bounds :
    (∀ s : String, enter_account_number s = .proceed ↔ spec_number_ok s.data = true)
    ∧ (∀ s : String,
        enter_account_number s = .proceed ∨ enter_account_number s = .reprompt)
    ∧ enter_account_number "01712345678" = .proceed
    ∧ enter_account_number "017123456789" = .proceed
    ∧ enter_account_number "017১২৩৪৫৬৭৮" = .proceed
    ∧ enter_account_number "017১২৩৪৫৬৭৮৯" = .proceed
    ∧ enter_account_number "01012345678" = .reprompt
    ∧ enter_account_number "0171234567" = .reprompt
    ∧ enter_account_number "01712345a78" = .reprompt := by
  refine ⟨?_, ?_, by decide, by decide, by decide, by decide, by decide, by decide, by decide⟩
  · intro s
    unfold enter_account_number
    by_cases h : matches_wd_number s.data
    · rw [if_pos h]
      simp only [true_iff]
      exact (matches_wd_number_iff_spec s.data).mp h
    · rw [if_neg h]
      constructor
      · intro hcon
        exact NumberStepResult.noConfusion hcon
      · intro hs
        exact absurd ((matches_wd_number_iff_spec s.data).mpr hs) h
  · intro s
    unfold enter_account_number
    by_cases h : matches_wd_number s.data
    · left
      rw [if_pos h]
    · right
      rw [if_neg h]

/- ### Registration and referral accrual (C4, C5, C6) -/

/-- Referrer-argument validation inside `start_command` (lines 225-236).
`ref_arg` is the start parameter after `isdigit` parsing: `none` when absent
or not a digit string, `some p` for the parsed (hence non-negative) integer. -/
def resolve_referrer (db : DB) (user_id : Int) (ref_arg : Option Int) : Option Int :=
  match ref_arg with
  | none => none
  | some p =>
    if p ≠ user_id then
      if (get_user db p).isSome then some p else none
    else none

/-- `start_command` (lines 207-265) restricted to its effect on the `users`
table.  For an existing user nothing is written.  For a new user the row is
inserted and, when a referrer id was resolved, the referrer is credited
`REFERRAL_BONUS` and their referral count incremented.  The Python guard
`if referred_by_id:` is falsy both for `None` and for the literal id `0`,
hence the `ref = 0` test. -/
def start_command (db : DB) (user_id : Int) (name : String) (ref_arg : Option Int)
    (insertFail bonusFail incFail : Bool) : DB :=
  if (get_user db user_id).isSome then db
  else
    let referred_by_id := resolve_referrer db user_id ref_arg
    let created := create_user db user_id name referred_by_id insertFail
    match created.1 with
    | none => created.2
    | some _ =>
      match referred_by_id with
      | none => created.2
      | some ref =>
        if ref = 0 then created.2
        else
          increment_referral_count
            (update_user_balance created.2 ref REFERRAL_BONUS "add" bonusFail).2 ref incFail

/-- A successful insert of a fresh user. -/
theorem create_user_fresh (db : DB) (uid : Int) (name : String) (rb : Option Int)
    (hnew : get_user db uid = none) :
    create_user db uid name rb false =
      (some (new_user_row uid name rb), db ++ [new_user_row uid name rb]) := by
  unfold create_user
  simp [hnew]

/-- Looking up the freshly inserted row. -/
theorem get_user_after_insert (db : DB) (uid : Int) (name : String) (rb : Option Int)
    (hnew : get_user db uid = none) :
    get_user (db ++ [new_user_row uid name rb]) uid = some (new_user_row uid name rb) := by
  rw [get_user_append, hnew]
  simp [get_user, new_user_row]

/-- Registration with no resolved referrer only appends the new row, with an
empty referrer link. -/
theorem start_command_no_ref (db : DB) (user_id : Int) (name : String)
    (ref_arg : Option Int) (bf icf : Bool)
    (hnew : get_user db user_id = none)
    (hres : resolve_referrer db user_id ref_arg = none) :
    start_command db user_id name ref_arg false bf icf =
      db ++ [new_user_row user_id name none] := by
  unfold start_command
  rw [hnew]
  simp only [Option.isSome_none, Bool.false_eq_true, if_false, hres,
    create_user_fresh db user_id name none hnew]

/-- Registration with a resolved, non-zero referrer credits the bonus and
bumps the referral count. -/
theorem start_command_with_ref (db : DB) (user_id ref : Int) (name : String)
    (r : UserAccount)
    (hnew : get_user db user_id = none)
    (href : get_user db ref = some r)
    (href0 : ref ≠ 0) :
    (get_user (start_command db user_id name (some ref) false false false) ref).map
        (fun u => (u.balance, u.referrals)) =
      some (r.balance + REFERRAL_BONUS, r.referrals + 1) := by
  have hneq : ref ≠ user_id := by
    intro h
    rw [h, hnew] at href
    exact Option.noConfusion href
  have hres : resolve_referrer db user_id (some ref) = some ref := by
    simp only [resolve_referrer]
    rw [if_pos hneq, href]
    rfl
  have hrow : get_user (db ++ [new_user_row user_id name (some ref)]) ref = some r := by
    rw [get_user_append, href]
    rfl
  have hupd : update_user_balance (db ++ [new_user_row user_id name (some ref)]) ref
      REFERRAL_BONUS "add" false =
      (.ok, set_balance (db ++ [new_user_row user_id name (some ref)]) ref
        (r.balance + REFERRAL_BONUS)) := by
    unfold update_user_balance
    rw [hrow]
    rfl
  have hget2 : get_user (set_balance (db ++ [new_user_row user_id name (some ref)]) ref
      (r.balance + REFERRAL_BONUS)) ref = some { r with balance := r.balance + REFERRAL_BONUS } := by
    rw [get_user_set_balance, if_pos rfl, hrow]
    rfl
  have hinc : increment_referral_count (set_balance
      (db ++ [new_user_row user_id name (some ref)]) ref (r.balance + REFERRAL_BONUS)) ref false =
      set_referrals (set_balance (db ++ [new_user_row user_id name (some ref)]) ref
        (r.balance + REFERRAL_BONUS)) ref (r.referrals + 1) := by
    unfold increment_referral_count
    rw [hget2]
    rfl
  unfold start_command
  rw [hnew]
  simp only [Option.isSome_none, Bool.false_eq_true, if_false, hres,
    create_user_fresh db user_id name (some ref) hnew, if_neg href0, hupd, hinc]
  rw [get_user_set_referrals, if_pos rfl, hget2]
  rfl

/-- C4: a new registration with a valid referrer (an existing account distinct
from the registrant) raises that referrer's balance by exactly
`REFERRAL_BONUS = 10` and their referral count by exactly 1; registering with
one's own id as referrer leaves the table unchanged apart from the new row. -/
theorem C4_referral_bonus :
    (∀ (db : DB) (user_id ref : Int) (name : String) (r : UserAccount),
        get_user db user_id = none →
        get_user db ref = some r →
        ref ≠ 0 →
        (get_user (start_command db user_id name (some ref) false false false) ref).map
            (fun u => (u.balance, u.referrals)) =
          some (r.balance + REFERRAL_BONUS, r.referrals + 1))
    ∧ (∀ (db : DB) (user_id : Int) (name : String),
        get_user db user_id = none →
        start_command db user_id name (some user_id) false false false =
          db ++ [new_user_row user_id name none]) := by
  constructor
  · exact start_command_with_ref
  · intro db user_id name hnew
    refine start_command_no_ref db user_id name (some user_id) false false hnew ?_
    simp only [resolve_referrer]
    rw [if_neg (not_not_intro rfl)]

def c4db : DB := [{ id := 7, name := "Ref", balance := 100, ref_by := none,
                    referrals := 2, withdraws := 0 }]

def c4r : UserAccount := { id := 7, name := "Ref", balance := 100, ref_by := none,
                           referrals := 2, withdraws := 0 }

/-- Witness for C4 at a concrete table. -/
theorem C4_referral_bonus_witness :
    get_user c4db 1 = none ∧ get_user c4db 7 = some c4r ∧ (7 : Int) ≠ 0 ∧
      (get_user (start_command c4db 1 "Alice" (some 7) false false false) 7).map
          (fun u => (u.balance, u.referrals)) =
        some (c4r.balance + REFERRAL_BONUS, c4r.referrals + 1) :=
  ⟨by decide, by decide, by decide,
   C4_referral_bonus.1 c4db 1 7 "Alice" c4r (by decide) (by decide) (by decide)⟩

/-- C5: a referrer argument that does not resolve to an existing account, or
that equals the registrant's own id, yields no bonus and a new row whose
referrer link is empty. -/
theorem C5_invalid_referrer :
    ∀ (db : DB) (user_id p : Int) (name : String),
      get_user db user_id = none →
      (p = user_id ∨ get_user db p = none) →
      start_command db user_id name (some p) false false false =
        db ++ [new_user_row user_id name none] := by
  intro db user_id p name hnew hp
  refine start_command_no_ref db user_id name (some p) false false hnew ?_
  simp only [resolve_referrer]
  rcases hp with h | h
  · rw [if_neg (not_not_intro h)]
  · by_cases hne : p ≠ user_id
    · rw [if_pos hne, h]
      rfl
    · rw [if_neg hne]

def c5db : DB := [{ id := 7, name := "Ref", balance := 100, ref_by := none,
                    referrals := 2, withdraws := 0 }]

/-- Witness for C5 at a concrete table (unknown referrer id 99). -/
theorem C5_invalid_referrer_witness :
    get_user c5db 1 = none ∧ ((99 : Int) = 1 ∨ get_user c5db 99 = none) ∧
      start_command c5db 1 "Bob" (some 99) false false false =
        c5db ++ [new_user_row 1 "Bob" none] :=
  ⟨by decide, Or.inr (by decide),
   C5_invalid_referrer c5db 1 99 "Bob" (by decide) (Or.inr (by decide))⟩

/-- C6: creating the same id twice returns the account made by the first call;
the duplicate-key path is a non-fatal fetch of the existing row and inserts
nothing. -/
theorem C6_idempotent_create :
    ∀ (db : DB) (uid : Int) (n1 n2 : String) (r1 r2 : Option Int),
      get_user db uid = none →
      create_user db uid n1 r1 false =
          (some (new_user_row uid n1 r1), db ++ [new_user_row uid n1 r1]) ∧
        create_user (db ++ [new_user_row uid n1 r1]) uid n2 r2 false =
          (some (new_user_row uid n1 r1), db ++ [new_user_row uid n1 r1]) := by
  intro db uid n1 n2 r1 r2 hnew
  refine ⟨create_user_fresh db uid n1 r1 hnew, ?_⟩
  have hg := get_user_after_insert db uid n1 r1 hnew
  unfold create_user
  simp [hg]

/-- Witness for C6 on the empty table. -/
theorem C6_idempotent_create_witness :
    get_user ([] : DB) 5 = none ∧
      (create_user [] 5 "Ann" none false =
          (some (new_user_row 5 "Ann" none), [new_user_row 5 "Ann" none]) ∧
        create_user [new_user_row 5 "Ann" none] 5 "Ann again" (some 9) false =
          (some (new_user_row 5 "Ann" none), [new_user_row 5 "Ann" none])) :=
  ⟨rfl, by simpa using C6_idempotent_create [] 5 "Ann" "Ann again" none (some 9) rfl⟩

/- ### Withdrawal confirmation (C1, C9) -/

/-- The two tables touched by a withdrawal confirmation. -/
structure BotState where
  users : DB
  withdrawals : List WithdrawalRequest
deriving DecidableEq, Repr

/-- `record_withdrawal` (lines 159-173): insert a `pending` request carrying a
freshly generated uuid (`new_req_id` stands for `str(uuid4())`); `recFail`
means the insert raised, so `None` comes back and nothing is stored. -/
def record_withdrawal (st : BotState) (user_id : Int) (full_name : String) (amount : Int)
    (method account_number : String) (new_req_id : String) (recFail : Bool) :
    Option WithdrawalRequest × BotState :=
  if recFail then (none, st)
  else
    let wd : WithdrawalRequest :=
      { user_id := user_id, full_name := full_name, amount := amount, method := method,
        account_number := account_number, status := "pending", request_id := new_req_id }
    (some wd, { st with withdrawals := st.withdrawals ++ [wd] })

/-- The `context.user_data` slots the withdrawal conversation fills in. -/
structure Session where
  wd_name : Option String
  wd_method : Option String
  wd_acc_num : Option String
  wd_amount : Option Int
deriving DecidableEq, Repr

/-- `context.user_data.clear()`. -/
def emptySession : Session :=
  { wd_name := none, wd_method := none, wd_acc_num := none, wd_amount := none }

/-- The message shown by `confirm_withdrawal_request_callback` when it ends. -/
inductive ConfirmOutcome where
  | cancelled
  | missingData
  | lowBalance
  | insufficientAtDebit
  | updateFailed
  | recorded (req_id : String)
  | recordFailedRefunded
  | recordFailedRefundFailed
deriving DecidableEq, Repr

/-- `confirm_withdrawal_request_callback` (lines 545-589).  The Python
`if not all([name, method, acc, amt is not None])` guard is falsy for a `None`
slot and for an empty name/method/account string.  `withdrawal_record and
withdrawal_record.get('request_id')` is falsy for an empty request id, in
which case the refund branch runs even though the insert happened (unreachable
for uuid4 ids).  Every path clears the session and ends the conversation. -/
def confirm_withdrawal_request_callback (st : BotState) (user_id : Int) (sess : Session)
    (query_data : String) (new_req_id : String) (debitFail recFail refundFail : Bool) :
    ConfirmOutcome × BotState × Session :=
  if query_data = "wd_cancel_conv" then (.cancelled, st, emptySession)
  else
    match sess.wd_name, sess.wd_method, sess.wd_acc_num, sess.wd_amount with
    | some name, some method, some acc, some amt =>
      if name = "" ∨ method = "" ∨ acc = "" then (.missingData, st, emptySession)
      else
        match get_user st.users user_id with
        | none => (.lowBalance, st, emptySession)
        | some u =>
          if u.balance < amt then (.lowBalance, st, emptySession)
          else
            let r1 := update_user_balance st.users user_id amt "subtract" debitFail
            match r1.1 with
            | .ok =>
              let st1 : BotState := { st with users := r1.2 }
              let rec_r := record_withdrawal st1 user_id name amt method acc new_req_id recFail
              match rec_r.1 with
              | some wd =>
                if wd.request_id = "" then
                  let r2 := update_user_balance rec_r.2.users user_id amt "add" refundFail
                  if r2.1 = .ok then
                    (.recordFailedRefunded, { rec_r.2 with users := r2.2 }, emptySession)
                  else (.recordFailedRefundFailed, { rec_r.2 with users := r2.2 }, emptySession)
                else (.recorded wd.request_id, rec_r.2, emptySession)
              | none =>
                let r2 := update_user_balance rec_r.2.users user_id amt "add" refundFail
                if r2.1 = .ok then
                  (.recordFailedRefunded, { rec_r.2 with users := r2.2 }, emptySession)
                else (.recordFailedRefundFailed, { rec_r.2 with users := r2.2 }, emptySession)
            | .insufficientFunds => (.insufficientAtDebit, { st with users := r1.2 }, emptySession)
            | .err => (.updateFailed, { st with users := r1.2 }, emptySession)
    | _, _, _, _ => (.missingData, st, emptySession)

/-- The balance a reader of the `users` table sees for `uid`. -/
def user_balance (st : BotState) (uid : Int) : Option Int :=
  (get_user st.users uid).map (fun u => u.balance)

/- Evaluation lemmas for `update_user_balance` at the literal operation names. -/

theorem update_subtract_ok (db : DB) (uid amt : Int) (u : UserAccount)
    (hget : get_user db uid = some u) (hlt : ¬u.balance < amt) :
    update_user_balance db uid amt "subtract" false =
      (.ok, set_balance db uid (u.balance - amt)) := by
  unfold update_user_balance
  rw [hget]
  simp [hlt]

theorem update_subtract_storeFail (db : DB) (uid amt : Int) (u : UserAccount)
    (hget : get_user db uid = some u) (hlt : ¬u.balance < amt) :
    update_user_balance db uid amt "subtract" true = (.err, db) := by
  unfold update_user_balance
  rw [hget]
  simp [hlt]

theorem update_add_ok (db : DB) (uid amt : Int) (u : UserAccount)
    (hget : get_user db uid = some u) :
    update_user_balance db uid amt "add" false =
      (.ok, set_balance db uid (u.balance + amt)) := by
  unfold update_user_balance
  rw [hget]
  rfl

theorem update_add_storeFail (db : DB) (uid amt : Int) (u : UserAccount)
    (hget : get_user db uid = some u) :
    update_user_balance db uid amt "add" true = (.err, db) := by
  unfold update_user_balance
  rw [hget]
  rfl

/-- C9: at the confirmation step the balance is re-fetched; when it is below
the session amount the workflow aborts with the insufficient-balance message,
clears the session, and writes nothing to either table. -/
theorem C9_confirm_refetch_insufficient
    (st : BotState) (user_id : Int) (sess : Session) (rid : String)
    (dF rF refF : Bool) (name method acc : String) (amt : Int) (u : UserAccount) :
    sess.wd_name = some name → sess.wd_method = some method →
    sess.wd_acc_num = some acc → sess.wd_amount = some amt →
    ¬(name = "" ∨ method = "" ∨ acc = "") →
    get_user st.users user_id = some u →
    u.balance < amt →
    confirm_withdrawal_request_callback st user_id sess "wd_final_confirm" rid dF rF refF =
      (.lowBalance, st, emptySession) := by
  intro h1 h2 h3 h4 h5 h6 h7
  unfold confirm_withdrawal_request_callback
  rw [if_neg (by decide : ¬("wd_final_confirm" = "wd_cancel_conv"))]
  simp only [h1, h2, h3, h4]
  rw [if_neg h5]
  simp only [h6]
  rw [if_pos h7]

def c9u : UserAccount := { id := 2, name := "u", balance := 100, ref_by := none,
                           referrals := 0, withdraws := 0 }

def c9st : BotState := { users := [c9u], withdrawals := [] }

def c9sess : Session := { wd_name := some "Carl Doe", wd_method := some "bkash",
                          wd_acc_num := some "01712345678", wd_amount := some 500 }

/-- Witness for C9: balance 100 against a confirmed amount of 500. -/
theorem C9_confirm_refetch_insufficient_witness :
    c9sess.wd_name = some "Carl Doe" ∧ c9sess.wd_method = some "bkash" ∧
      c9sess.wd_acc_num = some "01712345678" ∧ c9sess.wd_amount = some 500 ∧
      ¬(("Carl Doe" : String) = "" ∨ ("bkash" : String) = "" ∨
        ("01712345678" : String) = "") ∧
      get_user c9st.users 2 = some c9u ∧ c9u.balance < 500 ∧
      confirm_withdrawal_request_callback c9st 2 c9sess "wd_final_confirm" "rid"
          false false false =
        (.lowBalance, c9st, emptySession) :=
  ⟨rfl, rfl, rfl, rfl, by decide, by decide, by decide,
   C9_confirm_refetch_insufficient c9st 2 c9sess "rid" false false false
     "Carl Doe" "bkash" "01712345678" 500 c9u rfl rfl rfl rfl
     (by decide) (by decide) (by decide)⟩

def c1u : UserAccount := { id := 1, name := "v", balance := 600, ref_by := none,
                           referrals := 0, withdraws := 0 }

def c1st : BotState := { users := [c1u], withdrawals := [] }

def c1sess : Session := { wd_name := some "Dan Roe", wd_method := some "nagad",
                          wd_acc_num := some "01812345678", wd_amount := some 500 }

/-- C1 counterexample: when the request insert fails AND the compensating
credit also fails at the store, the balance stays debited (600 becomes 100)
while no withdrawal request exists — neither arm of the claimed dichotomy. -/
theorem C1_atomicity_counterexample :
    ¬(((∃ w ∈ (confirm_withdrawal_request_callback c1st 1 c1sess "wd_final_confirm"
          "rid-1" false true true).2.1.withdrawals,
          w.status = "pending" ∧ w.user_id = 1 ∧ w.amount = 500) ∧
        user_balance (confirm_withdrawal_request_callback c1st 1 c1sess "wd_final_confirm"
          "rid-1" false true true).2.1 1 = some (600 - 500))
      ∨ ((confirm_withdrawal_request_callback c1st 1 c1sess "wd_final_confirm"
            "rid-1" false true true).2.1.withdrawals = ([] : List WithdrawalRequest) ∧
          user_balance (confirm_withdrawal_request_callback c1st 1 c1sess "wd_final_confirm"
            "rid-1" false true true).2.1 1 = some 600)) := by
  decide

/-- C1 (amended): every confirmation ends in exactly one of three states:
(a) success — a pending request for the session amount is appended and the
visible balance drops by that amount; (b) nothing recorded and every visible
account unchanged (all aborts, and a record failure whose compensating credit
succeeded); (c) the record insert failed and the compensating credit also
failed — nothing recorded but the balance remains debited.  The session is
cleared in every case. -/
theorem C1_compensation_trichotomy
    (st : BotState) (user_id : Int) (sess : Session) (rid : String)
    (dF rF refF : Bool) (hrid : rid ≠ "") :
    ∃ out st',
      confirm_withdrawal_request_callback st user_id sess "wd_final_confirm" rid dF rF refF =
        (out, st', emptySession) ∧
      ((∃ amt w, sess.wd_amount = some amt ∧
          st'.withdrawals = st.withdrawals ++ [w] ∧ w.status = "pending" ∧
          w.user_id = user_id ∧ w.amount = amt ∧
          user_balance st' user_id = (user_balance st user_id).map (fun b => b - amt))
       ∨ (st'.withdrawals = st.withdrawals ∧
          ∀ id, get_user st'.users id = get_user st.users id)
       ∨ (out = ConfirmOutcome.recordFailedRefundFailed ∧
          st'.withdrawals = st.withdrawals ∧
          ∃ amt, sess.wd_amount = some amt ∧
            user_balance st' user_id = (user_balance st user_id).map (fun b => b - amt))) := by
  rcases sess with ⟨nn, mm, aa, am⟩
  unfold confirm_withdrawal_request_callback
  rw [if_neg (by decide : ¬("wd_final_confirm" = "wd_cancel_conv"))]
  cases nn with
  | none => exact ⟨.missingData, st, rfl, Or.inr (Or.inl ⟨rfl, fun _ => rfl⟩)⟩
  | some nn =>
  cases mm with
  | none => exact ⟨.missingData, st, rfl, Or.inr (Or.inl ⟨rfl, fun _ => rfl⟩)⟩
  | some mm =>
  cases aa with
  | none => exact ⟨.missingData, st, rfl, Or.inr (Or.inl ⟨rfl, fun _ => rfl⟩)⟩
  | some aa =>
  cases am with
  | none => exact ⟨.missingData, st, rfl, Or.inr (Or.inl ⟨rfl, fun _ => rfl⟩)⟩
  | some am =>
  simp only
  by_cases hempty : nn = "" ∨ mm = "" ∨ aa = ""
  · rw [if_pos hempty]
    exact ⟨.missingData, st, rfl, Or.inr (Or.inl ⟨rfl, fun _ => rfl⟩)⟩
  · rw [if_neg hempty]
    cases hget : get_user st.users user_id with
    | none =>
      simp only
      exact ⟨.lowBalance, st, rfl, Or.inr (Or.inl ⟨rfl, fun _ => rfl⟩)⟩
    | some u =>
      simp only
      by_cases hlt : u.balance < am
      · rw [if_pos hlt]
        exact ⟨.lowBalance, st, rfl, Or.inr (Or.inl ⟨rfl, fun _ => rfl⟩)⟩
      · rw [if_neg hlt]
        have hview1 : get_user (set_balance st.users user_id (u.balance - am)) user_id =
            some { u with balance := u.balance - am } := by
          rw [get_user_set_balance, if_pos rfl, hget]
          rfl
        cases dF with
        | true =>
          rw [update_subtract_storeFail st.users user_id am u hget hlt]
          exact ⟨.updateFailed, st, rfl, Or.inr (Or.inl ⟨rfl, fun _ => rfl⟩)⟩
        | false =>
          rw [update_subtract_ok st.users user_id am u hget hlt]
          simp only
          cases rF with
          | false =>
            simp only [record_withdrawal, Bool.false_eq_true, if_false]
            rw [if_neg hrid]
            refine ⟨_, _, rfl, Or.inl ⟨am, _, rfl, rfl, rfl, rfl, rfl, ?_⟩⟩
            simp only [user_balance, get_user_set_balance, if_pos rfl, hget]
            rfl
          | true =>
            simp only [record_withdrawal, eq_self_iff_true, if_true]
            cases refF with
            | true =>
              rw [update_add_storeFail _ user_id am _ hview1]
              refine ⟨_, _, rfl, Or.inr (Or.inr ⟨rfl, rfl, am, rfl, ?_⟩)⟩
              simp only [user_balance, get_user_set_balance, if_pos rfl, hget]
              rfl
            | false =>
              rw [update_add_ok _ user_id am _ hview1]
              simp only
              rw [if_pos trivial]
              refine ⟨_, _, rfl, Or.inr (Or.inl ⟨rfl, ?_⟩)⟩
              intro id
              simp only [get_user_set_balance]
              by_cases hid : id = user_id
              · rw [if_pos hid, if_pos trivial, hget, hid, hget]
                have harith : u.balance - am + am = u.balance := by ring
                rw [harith]
                rfl
              · rw [if_neg hid, if_neg hid]

/-- Witness for the amended C1 at a successful concrete confirmation. -/
theorem C1_compensation_trichotomy_witness :
    ("rid-1" : String) ≠ "" ∧
      ∃ out st',
        confirm_withdrawal_request_callback c1st 1 c1sess "wd_final_confirm" "rid-1"
            false false false =
          (out, st', emptySession) ∧
        ((∃ amt w, c1sess.wd_amount = some amt ∧
            st'.withdrawals = c1st.withdrawals ++ [w] ∧ w.status = "pending" ∧
            w.user_id = 1 ∧ w.amount = amt ∧
            user_balance st' 1 = (user_balance c1st 1).map (fun b => b - amt))
         ∨ (st'.withdrawals = c1st.withdrawals ∧
            ∀ id, get_user st'.users id = get_user c1st.users id)
         ∨ (out = ConfirmOutcome.recordFailedRefundFailed ∧
            st'.withdrawals = c1st.withdrawals ∧
            ∃ amt, c1sess.wd_amount = some amt ∧
              user_balance st' 1 = (user_balance c1st 1).map (fun b => b - amt))) :=
  ⟨by decide, C1_compensation_trichotomy c1st 1 c1sess "rid-1" false false false (by decide)⟩

/- ### Broadcast dispatcher (C8) -/

/-- Per-recipient transport result, as classified by the except clauses of the
send loop (lines 446-456): delivered, a TelegramError naming
blocked/deactivated/not found, any other TelegramError, or any other
exception. -/
inductive SendOutcome where
  | delivered
  | blockedErr
  | otherTgErr
  | otherExn
deriving DecidableEq, Repr

/-- Running counters of the send loop plus the trace of recipients for whom a
send was attempted. -/
structure BroadcastTally where
  sent : Nat
  failed : Nat
  blocked : Nat
  attempts : List Int
deriving DecidableEq, Repr

/-- One iteration of the send loop: attempt the recipient, classify the
outcome into exactly one counter. -/
def broadcast_step (transport : Int → SendOutcome) (acc : BroadcastTally)
    (uid : Int) : BroadcastTally :=
  match transport uid with
  | .delivered => { acc with sent := acc.sent + 1, attempts := acc.attempts ++ [uid] }
  | .blockedErr => { acc with blocked := acc.blocked + 1, attempts := acc.attempts ++ [uid] }
  | .otherTgErr => { acc with failed := acc.failed + 1, attempts := acc.attempts ++ [uid] }
  | .otherExn => { acc with failed := acc.failed + 1, attempts := acc.attempts ++ [uid] }

/-- The summary message of `confirm_broadcast_send_callback` (lines 458-462). -/
structure BroadcastSummary where
  targeted : Nat
  sent : Nat
  failed : Nat
  blocked : Nat
  attempts : List Int
deriving DecidableEq, Repr

/-- The send loop of `confirm_broadcast_send_callback` (lines 430-464):
iterate every stored user id in order, classify each attempt, never abort. -/
def confirm_broadcast_send (all_uids : List Int)
    (transport : Int → SendOutcome) : BroadcastSummary :=
  let fin := all_uids.foldl (broadcast_step transport) ⟨0, 0, 0, []⟩
  { targeted := all_uids.length, sent := fin.sent, failed := fin.failed,
    blocked := fin.blocked, attempts := fin.attempts }

theorem broadcast_step_attempts (tr : Int → SendOutcome) (acc : BroadcastTally) (x : Int) :
    (broadcast_step tr acc x).attempts = acc.attempts ++ [x] := by
  unfold broadcast_step
  cases tr x <;> rfl

theorem broadcast_step_sum (tr : Int → SendOutcome) (acc : BroadcastTally) (x : Int) :
    (broadcast_step tr acc x).sent + (broadcast_step tr acc x).failed +
        (broadcast_step tr acc x).blocked =
      acc.sent + acc.failed + acc.blocked + 1 := by
  unfold broadcast_step
  cases tr x <;> simp <;> omega

theorem broadcast_fold (tr : Int → SendOutcome) :
    ∀ (uids : List Int) (acc : BroadcastTally),
      (uids.foldl (broadcast_step tr) acc).attempts = acc.attempts ++ uids ∧
      (uids.foldl (broadcast_step tr) acc).sent + (uids.foldl (broadcast_step tr) acc).failed +
          (uids.foldl (broadcast_step tr) acc).blocked =
        acc.sent + acc.failed + acc.blocked + uids.length := by
  intro uids
  induction uids with
  | nil =>
    intro acc
    simp
  | cons x t ih =>
    intro acc
    simp only [List.foldl_cons]
    constructor
    · rw [(ih (broadcast_step tr acc x)).1, broadcast_step_attempts]
      simp
    · rw [(ih (broadcast_step tr acc x)).2, broadcast_step_sum]
      simp
      omega

/-- C8: every recipient is attempted exactly once, in store order, no matter
how earlier attempts fail; each attempt lands in exactly one bucket, so
`targeted = sent + failed + blocked`; and the spec's 10-recipient example with
3 blocked-type errors and 1 generic error tallies (10, 6, 1, 3). -/
theorem C8_broadcast_accounting :
    (∀ (uids : List Int) (transport : Int → SendOutcome),
        (confirm_broadcast_send uids transport).attempts = uids ∧
        (confirm_broadcast_send uids transport).targeted = uids.length ∧
        (confirm_broadcast_send uids transport).targeted =
          (confirm_broadcast_send uids transport).sent +
            (confirm_broadcast_send uids transport).failed +
            (confirm_broadcast_send uids transport).blocked)
    ∧ confirm_broadcast_send [1, 2, 3, 4, 5, 6, 7, 8, 9, 10]
        (fun uid => if uid = 3 ∨ uid = 5 ∨ uid = 7 then .blockedErr
                    else if uid = 9 then .otherTgErr else .delivered) =
      { targeted := 10, sent := 6, failed := 1, blocked := 3,
        attempts := [1, 2, 3, 4, 5, 6, 7, 8, 9, 10] } := by
  constructor
  · intro uids transport
    have h := broadcast_fold transport uids ⟨0, 0, 0, []⟩
    unfold confirm_broadcast_send
    refine ⟨?_, rfl, ?_⟩
    · simpa using h.1
    · have h2 := h.2
      simp only at h2 ⊢
      omega
  · decide

end GetPaidBD
